import Mathlib

/-!
Shallow embedding of `src/lib/recognizer/recognizer.js` (the nlp.js
Microsoft Bot Framework compatible `Recognizer` class) and proofs of the
claims of the specification about it.

Modelling conventions:
* JS object property maps (the conversation context) are association lists
  in insertion order; property assignment updates in place or appends,
  `delete` removes the key.
* JS `undefined` for an optional field is `Option.none`.
* Scores and thresholds are numbers compared with `<` / `>` only; they are
  modelled as rationals, which preserves the orderings the code uses.
* The external NLP engine (`this.nlpManager.process`) is a parameter: a
  function from the call it receives (locale or engine-default-locale path,
  utterance, context) to its response.  The asynchronous store calls are
  parameters describing the outcome of the load and the save promises.
* Each function returns, besides its JS return value, a trace of the
  observable calls it made (engine calls, store load, store save), so that
  claims about "no call is made" are statable.
-/

/-- A JS value stored in the conversation context.  The recognizer only ever
stores strings (entity options, `dialogId`) and booleans (the `$modified`
marker), so these two constructors suffice; truthiness follows JS. -/
inductive Value where
  | str : String → Value
  | bool : Bool → Value
deriving DecidableEq, Repr

/-- JS truthiness of a stored value: a string is truthy iff non-empty. -/
def Value.truthy : Value → Bool
  | .str s => !(s == "")
  | .bool b => b

/-- A conversation context: a JS object modelled as an association list in
insertion order. -/
abbrev Ctx := List (String × Value)

/-- Property read `c[k]`: the value of the entry with key `k` (`undefined`,
i.e. `none`, when absent). -/
def ctxGet (c : Ctx) (k : String) : Option Value :=
  match c with
  | [] => none
  | (k0, v0) :: rest => if k0 == k then some v0 else ctxGet rest k

/-- Property write `c[k] = v`: update the existing entry in place, or append
a new entry at the end. -/
def ctxSet (c : Ctx) (k : String) (v : Value) : Ctx :=
  match c with
  | [] => [(k, v)]
  | (k0, v0) :: rest => if k0 == k then (k, v) :: rest else (k0, v0) :: ctxSet rest k v

/-- Property removal `delete c[k]`. -/
def ctxDelete (c : Ctx) (k : String) : Ctx :=
  match c with
  | [] => []
  | (k0, v0) :: rest => if k0 == k then ctxDelete rest k else (k0, v0) :: ctxDelete rest k

/-- JS truthiness of a property lookup (`undefined` is falsy). -/
def lookupTruthy (v : Option Value) : Bool :=
  match v with
  | some v => v.truthy
  | none => false

/-- An entity of an engine response: `{entity: name, option: value}`. -/
structure Entity where
  entity : String
  option : Value
deriving DecidableEq, Repr

/-- An engine response: `{score, intent, entities, answer}`.  `intent = none`
is JS `undefined`; the reserved no-match sentinel of the engine is the string
`"None"`, which is what the code compares `response.intent` against. -/
structure Response where
  score : ℚ
  intent : Option String
  entities : List Entity
  answer : Option String
deriving DecidableEq, Repr

/-- One invocation of the NLP engine.  `withLocale l u c` models
`nlpManager.process(l, u, c)`; `noLocale u c` models the engine-default-locale
path `nlpManager.process(u, undefined, c)`, which carries only the utterance
and the context. -/
inductive EngineCall where
  | withLocale : String → String → Ctx → EngineCall
  | noLocale : String → Ctx → EngineCall
deriving DecidableEq, Repr

/-- The context handed to the engine in a call. -/
def EngineCall.context : EngineCall → Ctx
  | .withLocale _ _ c => c
  | .noLocale _ c => c

/-- The engine invocation built by `process`:
`locale ? nlpManager.process(locale, utterance, context) :
nlpManager.process(utterance, undefined, context)` — a JS-falsy locale
(absent or the empty string) takes the engine-default-locale path. -/
def mkEngineCall (locale : Option String) (utterance : String) (c : Ctx) : EngineCall :=
  match locale with
  | some l => if l == "" then .noLocale utterance c else .withLocale l utterance c
  | none => .noLocale utterance c

/-- The entity-merge loop of `process`:
`for each entity: context[entity.entity] = entity.option; context.$modified = true`. -/
def applyEntities (c : Ctx) : List Entity → Ctx
  | [] => c
  | e :: rest => applyEntities (ctxSet (ctxSet c e.entity e.option) "$modified" (Value.bool true)) rest

/-- Result of `process`: the returned response, the context after in-place
mutation, and the engine calls made. -/
structure ProcessOut where
  response : Response
  context : Ctx
  engineCalls : List EngineCall
deriving DecidableEq, Repr

/-- Model of `Recognizer.process(srcContext, locale, utterance)`.  The engine is the
parameter `engine`; `threshold` is `this.threshold`.  `srcContext = none` is a
JS-falsy source context, replaced by `{}` (`srcContext || {}`). -/
def process (threshold : ℚ) (engine : EngineCall → Response)
    (srcContext : Option Ctx) (locale : Option String) (utterance : String) : ProcessOut :=
  let context := srcContext.getD []
  let call := mkEngineCall locale utterance context
  let response := engine call
  if response.score < threshold ∨ response.intent = some "None" then
    { response := { response with answer := none }, context := context, engineCalls := [call] }
  else
    { response := response, context := applyEntities context response.entities,
      engineCalls := [call] }

/-- The test `dialogId.startsWith("*:")` of `getDialogId`: does the entry
open with the reserved two-character framework marker?  Phrased through
`String.take` (the same leading-units comparison) so it evaluates. -/
def startsWithMarker (d : String) : Bool :=
  d.take 2 == "*:"

/-- Scan of the dialog stack by `getDialogId`, from index 0 (the bottom):
return the remainder after the marker (`dialogId.substring(2)`) of the first
entry opening with the marker. -/
def scanDialogStack : List String → String
  | [] => ""
  | d :: rest => if startsWithMarker d then d.drop 2 else scanDialogStack rest

/-- A chatbot session (turn), reduced to the fields the recognizer reads:
`session.message.text` (absent message and absent text are collapsed into
`none`), `session.locale`, and the `session.dialogStack` accessor (`none`
when the accessor itself is absent). -/
structure Session where
  messageText : Option String
  locale : Option String
  dialogStack : Option (List String)

/-- The guard `session && session.message && session.message.text`:
the turn carries truthy utterance text (the empty string is falsy). -/
def Session.hasText (s : Session) : Bool :=
  match s.messageText with
  | some t => !(t == "")
  | none => false

/-- Model of `Recognizer.getDialogId(session)`. -/
def getDialogId (s : Session) : String :=
  match s.dialogStack with
  | none => ""
  | some stack => scanDialogStack stack

/-- Outcome of the context-store load promise
(`conversationContext.getConversationContext(session)`): resolves with a
context, or rejects. -/
inductive StoreLoad where
  | success : Ctx → StoreLoad
  | failure : StoreLoad

/-- Outcome of the context-store save promise
(`conversationContext.setConversationContext(session, context)`). -/
inductive StoreSave where
  | success : StoreSave
  | failure : StoreSave
deriving DecidableEq, Repr

/-- Observable trace of one `recognize(session, cb)` run: the result handed to
the callback (the error argument is always `null`), whether the store load was
called, the context handed to the store save (`none` when no save was
attempted), the outcome of the save when attempted, and the engine calls. -/
structure RecognizeTrace where
  callbackResult : Response
  storeLoadCalled : Bool
  savedContext : Option Ctx
  saveOutcome : Option StoreSave
  engineCalls : List EngineCall

/-- The neutral result `{ score: 0.0, intent: undefined }` built at the top of
`recognize` (it carries no entities and no answer). -/
def neutralResult : Response :=
  { score := 0, intent := none, entities := [], answer := none }

/-- Model of `Recognizer.recognize(session, cb)`.  With truthy message text, the
conversation context is loaded; on success `context.dialogId` is stamped,
`process` runs, and if `context.$modified` is truthy the marker is deleted and
the context saved, the callback receiving the process result whether the save
resolves or rejects; on load failure `process` runs on a fresh `{}` and no
save is attempted.  Without truthy text the callback receives the neutral
result and no store or engine call is made. -/
def recognize (threshold : ℚ) (engine : EngineCall → Response)
    (load : StoreLoad) (save : StoreSave) (s : Session) : RecognizeTrace :=
  if s.hasText then
    let utterance := s.messageText.getD ""
    match load with
    | .success srcContext =>
      let context := ctxSet srcContext "dialogId" (Value.str (getDialogId s))
      let out := process threshold engine (some context) s.locale utterance
      if lookupTruthy (ctxGet out.context "$modified") then
        { callbackResult := out.response
          storeLoadCalled := true
          savedContext := some (ctxDelete out.context "$modified")
          saveOutcome := some save
          engineCalls := out.engineCalls }
      else
        { callbackResult := out.response
          storeLoadCalled := true
          savedContext := none
          saveOutcome := none
          engineCalls := out.engineCalls }
    | .failure =>
      let out := process threshold engine (some []) s.locale utterance
      { callbackResult := out.response
        storeLoadCalled := true
        savedContext := none
        saveOutcome := none
        engineCalls := out.engineCalls }
  else
    { callbackResult := neutralResult
      storeLoadCalled := false
      savedContext := none
      saveOutcome := none
      engineCalls := [] }

/-- The routing decision taken by the installed `_onDisambiguateRoute`
override: abort (a hook returned a falsy value, the function returns
`undefined` with no action), begin a dialog, send a message, or fall through
to `defaultRouting` (whose internals live in the host framework). -/
inductive BotAction where
  | aborted : BotAction
  | beginDialog : String → BotAction
  | send : String → BotAction
  | defaultRoute : BotAction
deriving DecidableEq, Repr

/-- The optional routing hooks on the recognizer instance; each returns a
JS-truthiness-interpreted verdict, modelled as `Bool`. -/
structure RoutingHooks where
  onBeginRouting : Option (Session → Bool)
  onRecognizedRouting : Option (Session → Response → Bool)
  onUnrecognizedRouting : Option (Session → Response → Bool)
  onNoTextRouting : Option (Session → Bool)

/-- Veto test `self.onBeginRouting && !self.onBeginRouting(session)` (and the
same shape for `onNoTextRouting`): an absent hook never vetoes. -/
def hookVetoes (hook : Option (Session → Bool)) (s : Session) : Bool :=
  match hook with
  | some h => !h s
  | none => false

/-- Veto test for the two hooks that also receive the recognition result. -/
def hookVetoesR (hook : Option (Session → Response → Bool)) (s : Session)
    (r : Response) : Bool :=
  match hook with
  | some h => !h s r
  | none => false

/-- Truthiness test on `result.answer` together with the strict comparison
against the empty string: the answer is a present, non-empty string. -/
def answerTruthy : Option String → Bool
  | some a => !(a == "")
  | none => false

/-- Model of `Recognizer.processAnswer(session, answer)`: a slash-opened
answer begins the dialog addressed by the answer, any other answer is sent as
a message.  The source tests whether `answer[0]` is the slash character. -/
def processAnswer (answer : String) : BotAction :=
  if answer.front == '/' then .beginDialog answer else .send answer

/-- The body of the `disambiguate` function that `setBot` installs as
`bot._onDisambiguateRoute` when routing is activated, returning the action it
takes on the session. -/
def disambiguateRoute (threshold routingThreshold : ℚ) (engine : EngineCall → Response)
    (load : StoreLoad) (save : StoreSave) (hooks : RoutingHooks) (s : Session) : BotAction :=
  if hookVetoes hooks.onBeginRouting s then .aborted
  else if s.hasText then
    let result := (recognize threshold engine load save s).callbackResult
    if routingThreshold < result.score ∧ answerTruthy result.answer then
      if hookVetoesR hooks.onRecognizedRouting s result then .aborted
      else processAnswer (result.answer.getD "")
    else if hookVetoesR hooks.onUnrecognizedRouting s result then .aborted
    else .defaultRoute
  else if hookVetoes hooks.onNoTextRouting s then .aborted
  else .defaultRoute

/-- Model of `Recognizer.setBot(bot, activateRouting, routingThreshold)`,
observed as the routing decision made on a turn: when `activateRouting` is
false no override is installed (`none`, the default dispatch of the host
stands); when true, the installed `_onDisambiguateRoute` decides the action. -/
def setBotRoute (activateRouting : Bool) (threshold routingThreshold : ℚ)
    (engine : EngineCall → Response) (load : StoreLoad) (save : StoreSave)
    (hooks : RoutingHooks) (s : Session) : Option BotAction :=
  if activateRouting then
    some (disambiguateRoute threshold routingThreshold engine load save hooks s)
  else
    none

/-- The last entity of a list carrying a given name, if any: the collision
winner of the entity-merge loop for that key. -/
def lastEntityFor (k : String) : List Entity → Option Entity
  | [] => none
  | e :: rest =>
    match lastEntityFor k rest with
    | some e0 => some e0
    | none => if e.entity == k then some e else none

/-- Concrete engine `engReject`, whose response scores 0.4. -/
def engReject : EngineCall → Response :=
  fun _ => ⟨mkRat 4 10, some "greet", [⟨"name", .str "Ann"⟩], some "hello"⟩

/-- Concrete engine `engAcceptNoEntities`, whose response is accepted
(score 0.9, intent `"greet"`) but carries no entities. -/
def engAcceptNoEntities : EngineCall → Response :=
  fun _ => ⟨mkRat 9 10, some "greet", [], some "hello"⟩

/-- Concrete engine `engAcceptDup`, an accepted response with two entities
sharing the name `"a"`. -/
def engAcceptDup : EngineCall → Response :=
  fun _ => ⟨mkRat 9 10, some "greet", [⟨"a", .str "1"⟩, ⟨"a", .str "2"⟩], some "hello"⟩

/-- Concrete engine `engAccept`, an accepted response with one entity. -/
def engAccept : EngineCall → Response :=
  fun _ => ⟨mkRat 9 10, some "greet", [⟨"name", .str "Ann"⟩], some "hello"⟩

/-- Concrete engine `engHelp`, an accepted response (score 0.8) whose answer
is the slash-opened string `"/Help"`. -/
def engHelp : EngineCall → Response :=
  fun _ => ⟨mkRat 8 10, some "help", [], some "/Help"⟩

/-- A concrete session carrying the utterance `"hi"` and no dialog stack. -/
def sessionHi : Session := ⟨some "hi", none, none⟩

/-- A concrete session carrying no message text. -/
def sessionNoText : Session := ⟨none, some "en", none⟩

/-- A concrete session whose dialog stack is `["lib:internal", "*:main"]`. -/
def sessionStacked : Session := ⟨some "hi", none, some ["lib:internal", "*:main"]⟩

/-- A recognizer with none of the four routing hooks installed. -/
def noHooks : RoutingHooks := ⟨none, none, none, none⟩

theorem ctxGet_ctxSet_self (c : Ctx) (k : String) (v : Value) :
    ctxGet (ctxSet c k v) k = some v := by
  induction c with
  | nil => simp [ctxGet, ctxSet]
  | cons p rest ih =>
    obtain ⟨k0, v0⟩ := p
    by_cases h : k0 = k
    · subst h
      simp [ctxGet, ctxSet]
    · simpa [ctxGet, ctxSet, h] using ih

theorem ctxGet_ctxSet_ne (c : Ctx) (k j : String) (v : Value) (h : j ≠ k) :
    ctxGet (ctxSet c k v) j = ctxGet c j := by
  have h2 : ¬(k = j) := fun hh => h hh.symm
  induction c with
  | nil => simp [ctxGet, ctxSet, h2]
  | cons p rest ih =>
    obtain ⟨k0, v0⟩ := p
    by_cases h0 : k0 = k
    · subst h0
      simp [ctxGet, ctxSet, h2]
    · by_cases h1 : k0 = j
      · subst h1
        simp [ctxGet, ctxSet, h0]
      · simpa [ctxGet, ctxSet, h0, h1] using ih

theorem ctxGet_ctxDelete_self (c : Ctx) (k : String) :
    ctxGet (ctxDelete c k) k = none := by
  induction c with
  | nil => simp [ctxGet, ctxDelete]
  | cons p rest ih =>
    obtain ⟨k0, v0⟩ := p
    by_cases h : k0 = k
    · subst h
      simpa [ctxGet, ctxDelete] using ih
    · simpa [ctxGet, ctxDelete, h] using ih

theorem applyEntities_get_ne (es : List Entity) (c : Ctx) (k : String)
    (hk : k ≠ "$modified") :
    ctxGet (applyEntities c es) k =
      (match lastEntityFor k es with
       | some e => some e.option
       | none => ctxGet c k) := by
  induction es generalizing c with
  | nil => rfl
  | cons e rest ih =>
    simp only [applyEntities, lastEntityFor]
    rw [ih]
    cases hlast : lastEntityFor k rest with
    | some e0 => rfl
    | none =>
      by_cases he : e.entity = k
      · subst he
        simp [ctxGet_ctxSet_ne _ "$modified" _ _ hk, ctxGet_ctxSet_self]
      · simp [he, ctxGet_ctxSet_ne _ "$modified" _ _ hk,
          ctxGet_ctxSet_ne _ e.entity _ _ (fun hh => he (Eq.symm hh))]

theorem applyEntities_modified (es : List Entity) (c : Ctx) (h : es ≠ []) :
    ctxGet (applyEntities c es) "$modified" = some (Value.bool true) := by
  induction es generalizing c with
  | nil => exact absurd rfl h
  | cons e rest ih =>
    cases rest with
    | nil => simp [applyEntities, ctxGet_ctxSet_self]
    | cons e2 rest2 => exact ih _ (by simp)

theorem lastEntityFor_of_mem (es : List Entity) (e : Entity) (h : e ∈ es) :
    ∃ e2, lastEntityFor e.entity es = some e2 := by
  induction es with
  | nil => cases h
  | cons e0 rest ih =>
    rcases List.mem_cons.mp h with h0 | h0
    · subst h0
      cases hlast : lastEntityFor e.entity rest with
      | some e2 => exact ⟨e2, by simp [lastEntityFor, hlast]⟩
      | none => exact ⟨e, by simp [lastEntityFor, hlast]⟩
    · obtain ⟨e2, h2⟩ := ih h0
      exact ⟨e2, by simp [lastEntityFor, h2]⟩

theorem mkEngineCall_context (locale : Option String) (u : String) (c : Ctx) :
    (mkEngineCall locale u c).context = c := by
  cases locale with
  | none => rfl
  | some l =>
    by_cases h : l = ""
    · simp [mkEngineCall, h, EngineCall.context]
    · simp [mkEngineCall, h, EngineCall.context]

/-- C1: when the engine response scores below the threshold or its intent is
the reserved `"None"` sentinel, `process` returns the response with its
`answer` cleared (`undefined`) and the context exactly as it received it: no
entity key is written and the `$modified` marker is not set. -/
theorem claim_C1 (threshold : ℚ) (engine : EngineCall → Response)
    (srcContext : Option Ctx) (locale : Option String) (utterance : String)
    (h : (engine (mkEngineCall locale utterance (srcContext.getD []))).score < threshold ∨
         (engine (mkEngineCall locale utterance (srcContext.getD []))).intent = some "None") :
    (process threshold engine srcContext locale utterance).response.answer = none ∧
    (process threshold engine srcContext locale utterance).context = srcContext.getD [] := by
  simp only [process]
  split
  · exact ⟨rfl, rfl⟩
  · exact absurd h (by assumption)

theorem claim_C1_witness :
    (engReject (mkEngineCall none "hi" [])).score < mkRat 7 10 ∧
    (process (mkRat 7 10) engReject (some []) none "hi").response.answer = none ∧
    (process (mkRat 7 10) engReject (some []) none "hi").context = [] :=
  ⟨by decide, claim_C1 (mkRat 7 10) engReject (some []) none "hi" (Or.inl (by decide))⟩

/-- C2 counterexample: an accepted response (score 0.9 ≥ threshold 0.7,
intent `"greet"`) whose entity list is empty leaves the `$modified` marker
unset, because the code sets the marker inside the per-entity loop; the
part of the claim stating that the modified marker is set fails here. -/
theorem claim_C2_counterexample :
    ¬((process (mkRat 7 10) engAcceptNoEntities (some []) none "hi").response.score < mkRat 7 10 ∨
      (process (mkRat 7 10) engAcceptNoEntities (some []) none "hi").response.intent = some "None") ∧
    ctxGet (process (mkRat 7 10) engAcceptNoEntities (some []) none "hi").context "$modified" =
      none := by
  exact ⟨by decide, by decide⟩

/-- C2 (amended): for an accepted response, every non-reserved key reads as
the option of the last entity carrying that name (later duplicates win), keys
with no entity are untouched, the name of every entity is present in the context,
and the `$modified` marker is set whenever the entity list is non-empty (an
entity-free accepted response sets no marker). -/
theorem claim_C2_amended (threshold : ℚ) (engine : EngineCall → Response)
    (srcContext : Option Ctx) (locale : Option String) (utterance : String)
    (h : ¬((engine (mkEngineCall locale utterance (srcContext.getD []))).score < threshold ∨
           (engine (mkEngineCall locale utterance (srcContext.getD []))).intent = some "None")) :
    (∀ k, k ≠ "$modified" →
      ctxGet (process threshold engine srcContext locale utterance).context k =
        (match lastEntityFor k (process threshold engine srcContext locale utterance).response.entities with
         | some e => some e.option
         | none => ctxGet (srcContext.getD []) k)) ∧
    (∀ e, e ∈ (process threshold engine srcContext locale utterance).response.entities →
      e.entity ≠ "$modified" →
      ∃ e2, lastEntityFor e.entity (process threshold engine srcContext locale utterance).response.entities = some e2 ∧
        ctxGet (process threshold engine srcContext locale utterance).context e.entity = some e2.option) ∧
    ((process threshold engine srcContext locale utterance).response.entities ≠ [] →
      ctxGet (process threshold engine srcContext locale utterance).context "$modified" =
        some (Value.bool true)) := by
  have hproc : process threshold engine srcContext locale utterance =
      { response := engine (mkEngineCall locale utterance (srcContext.getD [])),
        context := applyEntities (srcContext.getD [])
          (engine (mkEngineCall locale utterance (srcContext.getD []))).entities,
        engineCalls := [mkEngineCall locale utterance (srcContext.getD [])] } := by
    simp only [process]
    split
    · exact absurd (by assumption) h
    · rfl
  rw [hproc]
  refine ⟨fun k hk => applyEntities_get_ne _ _ k hk, fun e he hne => ?_, fun hne => applyEntities_modified _ _ hne⟩
  obtain ⟨e2, h2⟩ := lastEntityFor_of_mem _ e he
  exact ⟨e2, h2, by rw [applyEntities_get_ne _ _ _ hne, h2]⟩

theorem claim_C2_witness :
    ctxGet (process (mkRat 7 10) engAcceptDup (some []) none "hi").context "a" =
      some (.str "2") ∧
    ctxGet (process (mkRat 7 10) engAcceptDup (some []) none "hi").context "$modified" =
      some (.bool true) := by
  have h := claim_C2_amended (mkRat 7 10) engAcceptDup (some []) none "hi" (by decide)
  refine ⟨?_, h.2.2 (by decide)⟩
  rw [h.1 "a" (by decide)]
  decide

/-- C9: `process` makes exactly one engine call; with an absent locale the
call takes the engine-default-locale path `nlpManager.process(utterance,
undefined, context)`, carrying only the utterance and the context, and with
a present (truthy, i.e. non-empty) locale it is
`nlpManager.process(locale, utterance, context)`. -/
theorem claim_C9 (threshold : ℚ) (engine : EngineCall → Response)
    (srcContext : Option Ctx) (locale : Option String) (utterance : String) :
    (process threshold engine srcContext locale utterance).engineCalls =
      [mkEngineCall locale utterance (srcContext.getD [])] ∧
    (locale = none →
      mkEngineCall locale utterance (srcContext.getD []) =
        .noLocale utterance (srcContext.getD [])) ∧
    (∀ l, locale = some l → l ≠ "" →
      mkEngineCall locale utterance (srcContext.getD []) =
        .withLocale l utterance (srcContext.getD [])) := by
  refine ⟨?_, ?_, ?_⟩
  · simp only [process]
    split <;> rfl
  · intro h
    subst h
    rfl
  · intro l h hne
    subst h
    simp [mkEngineCall, hne]

theorem claim_C9_witness :
    (process (mkRat 7 10) engReject (some []) (some "en") "hi").engineCalls =
      [EngineCall.withLocale "en" "hi" []] := by
  have h := claim_C9 (mkRat 7 10) engReject (some []) (some "en") "hi"
  rw [h.1, h.2.2 "en" rfl (by decide)]
  rfl

theorem process_engineCalls (threshold : ℚ) (engine : EngineCall → Response)
    (srcContext : Option Ctx) (locale : Option String) (utterance : String) :
    (process threshold engine srcContext locale utterance).engineCalls =
      [mkEngineCall locale utterance (srcContext.getD [])] := by
  simp only [process]
  split <;> rfl

theorem process_context_unchanged (threshold : ℚ) (engine : EngineCall → Response)
    (srcContext : Option Ctx) (locale : Option String) (utterance : String)
    (h : (engine (mkEngineCall locale utterance (srcContext.getD []))).score < threshold ∨
         (engine (mkEngineCall locale utterance (srcContext.getD []))).intent = some "None" ∨
         (engine (mkEngineCall locale utterance (srcContext.getD []))).entities = []) :
    (process threshold engine srcContext locale utterance).context = srcContext.getD [] := by
  simp only [process]
  split
  · rfl
  · rename_i hneg
    rcases h with h | h | h
    · exact absurd (Or.inl h) hneg
    · exact absurd (Or.inr h) hneg
    · rw [h]
      rfl

/-- C3: a turn without truthy message text makes the callback receive the
neutral result `{score: 0.0, intent: undefined}` (the absent intent is the
none-sentinel of the spec for "no classification"), and neither the context store
nor the engine is called. -/
theorem claim_C3 (threshold : ℚ) (engine : EngineCall → Response)
    (load : StoreLoad) (save : StoreSave) (s : Session) (h : s.hasText = false) :
    (recognize threshold engine load save s).callbackResult = neutralResult ∧
    neutralResult.score = 0 ∧ neutralResult.intent = none ∧
    (recognize threshold engine load save s).storeLoadCalled = false ∧
    (recognize threshold engine load save s).savedContext = none ∧
    (recognize threshold engine load save s).engineCalls = [] := by
  refine ⟨?_, rfl, rfl, ?_, ?_, ?_⟩ <;> simp [recognize, h]

theorem claim_C3_witness :
    Session.hasText sessionNoText = false ∧
    ((recognize (mkRat 7 10) engAccept .failure .success sessionNoText).callbackResult =
        neutralResult ∧
      neutralResult.score = 0 ∧ neutralResult.intent = none ∧
      (recognize (mkRat 7 10) engAccept .failure .success sessionNoText).storeLoadCalled = false ∧
      (recognize (mkRat 7 10) engAccept .failure .success sessionNoText).savedContext = none ∧
      (recognize (mkRat 7 10) engAccept .failure .success sessionNoText).engineCalls = []) :=
  ⟨by decide, claim_C3 (mkRat 7 10) engAccept .failure .success sessionNoText (by decide)⟩

/-- C4: any context handed to `setConversationContext` has had the
`$modified` marker deleted: the saved context never contains the marker. -/
theorem claim_C4 (threshold : ℚ) (engine : EngineCall → Response)
    (load : StoreLoad) (save : StoreSave) (s : Session) (c : Ctx)
    (h : (recognize threshold engine load save s).savedContext = some c) :
    ctxGet c "$modified" = none := by
  by_cases ht : s.hasText = true
  · cases load with
    | success c0 =>
      simp only [recognize, ht, if_true] at h
      split at h
      · simp only [Option.some_inj] at h
        exact h ▸ ctxGet_ctxDelete_self _ _
      · exact absurd h (by simp)
    | failure =>
      simp only [recognize, ht, if_true] at h
      exact absurd h (by simp)
  · simp only [recognize, ht, if_false] at h
    exact absurd h (by simp)

theorem claim_C4_witness :
    (recognize (mkRat 7 10) engAccept (.success []) .success sessionHi).savedContext =
      some [("dialogId", .str ""), ("name", .str "Ann")] ∧
    ctxGet [("dialogId", .str ""), ("name", .str "Ann")] "$modified" = none :=
  ⟨by decide, claim_C4 (mkRat 7 10) engAccept (.success []) .success sessionHi
    [("dialogId", .str ""), ("name", .str "Ann")] (by decide)⟩

/-- C5: when the context-store load rejects, the callback result is exactly
the one `process` computes from a fresh empty context `{}`, no save is
attempted, and the context the engine sees carries no `dialogId` stamp. -/
theorem claim_C5 (threshold : ℚ) (engine : EngineCall → Response) (save : StoreSave)
    (s : Session) (h : s.hasText = true) :
    (recognize threshold engine .failure save s).callbackResult =
      (process threshold engine (some []) s.locale (s.messageText.getD "")).response ∧
    (recognize threshold engine .failure save s).savedContext = none ∧
    (recognize threshold engine .failure save s).saveOutcome = none ∧
    ∀ call ∈ (recognize threshold engine .failure save s).engineCalls,
      ctxGet call.context "dialogId" = none := by
  refine ⟨?_, ?_, ?_, ?_⟩
  · simp [recognize, h]
  · simp [recognize, h]
  · simp [recognize, h]
  · simp only [recognize, h, if_true]
    rw [process_engineCalls]
    intro call hc
    simp only [List.mem_singleton] at hc
    subst hc
    rw [mkEngineCall_context]
    rfl

theorem claim_C5_witness :
    Session.hasText sessionHi = true ∧
    ((recognize (mkRat 7 10) engAccept .failure .success sessionHi).callbackResult =
        (process (mkRat 7 10) engAccept (some []) sessionHi.locale
          (sessionHi.messageText.getD "")).response ∧
      (recognize (mkRat 7 10) engAccept .failure .success sessionHi).savedContext = none ∧
      (recognize (mkRat 7 10) engAccept .failure .success sessionHi).saveOutcome = none ∧
      ∀ call ∈ (recognize (mkRat 7 10) engAccept .failure .success sessionHi).engineCalls,
        ctxGet call.context "dialogId" = none) :=
  ⟨by decide, claim_C5 (mkRat 7 10) engAccept .success sessionHi (by decide)⟩

/-- C6: the result handed to the callback does not depend on the outcome of
the context-store save: both the resolve and the reject continuation of the
save promise invoke `cb(null, processResult)` with the same result, so save
failures are swallowed and the callback always fires (the trace of the model
is total in the save outcome). -/
theorem claim_C6 (threshold : ℚ) (engine : EngineCall → Response) (load : StoreLoad)
    (s : Session) (save1 save2 : StoreSave) :
    (recognize threshold engine load save1 s).callbackResult =
      (recognize threshold engine load save2 s).callbackResult := by
  by_cases ht : s.hasText = true
  · cases load with
    | success c0 =>
      simp only [recognize, ht, if_true]
      split <;> rfl
    | failure =>
      simp only [recognize, ht, if_true]
  · simp [recognize, ht]

theorem scanDialogStack_all_miss (l : List String)
    (hall : ∀ d ∈ l, startsWithMarker d = false) :
    scanDialogStack l = "" := by
  induction l with
  | nil => rfl
  | cons d rest ih =>
    simp only [scanDialogStack, hall d (List.mem_cons_self d rest)]
    simp only [Bool.false_eq_true, if_false]
    exact ih (fun x hx => hall x (List.mem_cons_of_mem _ hx))

theorem scanDialogStack_found (pre : List String) (d : String) (rest : List String)
    (hpre : ∀ x ∈ pre, startsWithMarker x = false) (hd : startsWithMarker d = true) :
    scanDialogStack (pre ++ d :: rest) = d.drop 2 := by
  induction pre with
  | nil => simp [scanDialogStack, hd]
  | cons x xs ih =>
    simp only [List.cons_append, scanDialogStack, hpre x (List.mem_cons_self x xs)]
    simp only [Bool.false_eq_true, if_false]
    exact ih (fun y hy => hpre y (List.mem_cons_of_mem _ hy))

/-- C7: `getDialogId` returns `""` when the dialog-stack accessor is absent
or no entry opens with the reserved two-character marker, and
otherwise returns the first matching entry (scanning from index 0, the
bottom of the stack) with the two-character prefix removed. -/
theorem claim_C7 (s : Session) :
    (s.dialogStack = none → getDialogId s = "") ∧
    (∀ l, s.dialogStack = some l → (∀ d ∈ l, startsWithMarker d = false) →
      getDialogId s = "") ∧
    (∀ pre d rest, s.dialogStack = some (pre ++ d :: rest) →
      (∀ x ∈ pre, startsWithMarker x = false) → startsWithMarker d = true →
      getDialogId s = d.drop 2) := by
  refine ⟨?_, ?_, ?_⟩
  · intro h
    simp [getDialogId, h]
  · intro l h hall
    simp only [getDialogId, h]
    exact scanDialogStack_all_miss l hall
  · intro pre d rest h hpre hd
    simp only [getDialogId, h]
    exact scanDialogStack_found pre d rest hpre hd

theorem claim_C7_witness :
    getDialogId sessionStacked = "main" := by
  have h := (claim_C7 sessionStacked).2.2 ["lib:internal"] "*:main" [] rfl
    (by decide) (by decide)
  exact h.trans (by decide)

/-- C8: with routing activated, a turn with truthy text whose recognition
scores above the routing threshold and carries a present non-empty answer
(and whose begin/recognized hooks do not veto) dispatches the answer:
a slash-prefixed answer is passed to `beginDialog` (the sub-dialog addressed
by the answer, e.g. `"/Help"` begins the Help dialog) instead of being sent,
and any other answer is passed to `send`. -/
theorem claim_C8 (threshold routingThreshold : ℚ) (engine : EngineCall → Response)
    (load : StoreLoad) (save : StoreSave) (hooks : RoutingHooks) (s : Session) (a : String)
    (h1 : hookVetoes hooks.onBeginRouting s = false)
    (h2 : s.hasText = true)
    (h3 : (recognize threshold engine load save s).callbackResult.answer = some a)
    (h4 : routingThreshold < (recognize threshold engine load save s).callbackResult.score)
    (h5 : a ≠ "")
    (h6 : hookVetoesR hooks.onRecognizedRouting s
        (recognize threshold engine load save s).callbackResult = false) :
    setBotRoute true threshold routingThreshold engine load save hooks s =
      some (if a.front == '/' then BotAction.beginDialog a else BotAction.send a) := by
  have hans : answerTruthy (some a) = true := by
    simp [answerTruthy, h5]
  simp [setBotRoute, disambiguateRoute, h1, h2, h4, h6, hans, processAnswer, h3]

theorem claim_C8_witness :
    setBotRoute true (mkRat 7 10) (mkRat 7 10) engHelp (.success []) .success
      noHooks sessionHi = some (BotAction.beginDialog "/Help") := by
  have h := claim_C8 (mkRat 7 10) (mkRat 7 10) engHelp (.success []) .success
    noHooks sessionHi "/Help" (by decide) (by decide) (by decide) (by decide)
    (by decide) (by decide)
  exact h.trans (congrArg some (by decide))

/-- C10: stamping `context.dialogId` never by itself triggers persistence:
when the loaded context has no truthy `$modified` marker and the engine
response is rejected (score below threshold or `"None"` intent) or carries no
entities, no save is attempted — even though the context handed to the engine
does carry the freshly stamped `dialogId`. -/
theorem claim_C10 (threshold : ℚ) (engine : EngineCall → Response) (save : StoreSave)
    (s : Session) (c0 : Ctx)
    (h1 : s.hasText = true)
    (h2 : lookupTruthy (ctxGet c0 "$modified") = false)
    (h3 : (engine (mkEngineCall s.locale (s.messageText.getD "")
            (ctxSet c0 "dialogId" (Value.str (getDialogId s))))).score < threshold ∨
          (engine (mkEngineCall s.locale (s.messageText.getD "")
            (ctxSet c0 "dialogId" (Value.str (getDialogId s))))).intent = some "None" ∨
          (engine (mkEngineCall s.locale (s.messageText.getD "")
            (ctxSet c0 "dialogId" (Value.str (getDialogId s))))).entities = []) :
    (recognize threshold engine (.success c0) save s).savedContext = none ∧
    (recognize threshold engine (.success c0) save s).saveOutcome = none ∧
    ∀ call ∈ (recognize threshold engine (.success c0) save s).engineCalls,
      ctxGet call.context "dialogId" = some (Value.str (getDialogId s)) := by
  have hctx := process_context_unchanged threshold engine
    (some (ctxSet c0 "dialogId" (Value.str (getDialogId s)))) s.locale
    (s.messageText.getD "") h3
  have hmod : lookupTruthy (ctxGet (process threshold engine
      (some (ctxSet c0 "dialogId" (Value.str (getDialogId s)))) s.locale
      (s.messageText.getD "")).context "$modified") = false := by
    rw [hctx]
    show lookupTruthy (ctxGet (ctxSet c0 "dialogId" (Value.str (getDialogId s))) "$modified") =
      false
    rw [ctxGet_ctxSet_ne _ _ _ _ (by decide)]
    exact h2
  simp only [recognize, h1, if_true, hmod, Bool.false_eq_true, if_false]
  refine ⟨trivial, trivial, ?_⟩
  rw [process_engineCalls]
  intro call hc
  simp only [List.mem_singleton] at hc
  subst hc
  rw [mkEngineCall_context]
  exact ctxGet_ctxSet_self _ _ _

theorem claim_C10_witness :
    (recognize (mkRat 7 10) engAcceptNoEntities (.success []) .success sessionHi).savedContext =
      none ∧
    (recognize (mkRat 7 10) engAcceptNoEntities (.success []) .success sessionHi).saveOutcome =
      none ∧
    ∀ call ∈ (recognize (mkRat 7 10) engAcceptNoEntities (.success []) .success
        sessionHi).engineCalls,
      ctxGet call.context "dialogId" = some (Value.str (getDialogId sessionHi)) :=
  claim_C10 (mkRat 7 10) engAcceptNoEntities .success sessionHi [] (by decide) (by decide)
    (Or.inr (Or.inr (by decide)))
